import Mathlib

/-!
Shallow embedding of the vscode-code-browser extension core: the file
browser navigator (pin toggling, tab completion, rename and delete flows,
action dispatch) and the search browser (query tokenizer, input debounce,
search-process lifecycle, content-result parsing, scrollback history).

Strings are modelled by Lean `String`; character-level operations are
defined directly over `String.data` so that concrete evaluations reduce
inside the kernel.  JavaScript numeric quirks the embedded code relies on
(`Number(undefined)` being `NaN`, array indexing at `-1` yielding
`undefined`, `x % 0` being `NaN`) are modelled with `Option`.
-/

namespace CodeBrowser

/-! ### JavaScript string primitives (ASCII fragment) -/

/-- Model of `s.toLowerCase()` on the ASCII strings the extension handles. -/
def lowerStr (s : String) : String := ⟨s.data.map Char.toLower⟩

/-- Model of the JavaScript `.length` of an (ASCII) string. -/
def strLen (s : String) : Nat := s.data.length

/-- Model of `s.split(sep)` for a single-character separator: every
occurrence splits, empty chunks are kept. -/
def jsSplitChar (sep : Char) (s : String) : List String :=
  (s.data.splitOn sep).map (fun l => ⟨l⟩)

/-- Model of `s.split(/\s/)`: each single whitespace character is a
separator (runs of whitespace produce empty chunks). -/
def jsSplitWs (s : String) : List String :=
  (s.data.splitOnP (fun c => c.isWhitespace)).map (fun l => ⟨l⟩)

/-- Model of `s.substring(1, s.length)`: drop the first character. -/
def strDropFirst (s : String) : String := ⟨s.data.drop 1⟩

/-- Model of `s.trim()`. -/
def jsTrim (s : String) : String :=
  ⟨((s.data.dropWhile Char.isWhitespace).reverse.dropWhile Char.isWhitespace).reverse⟩

/-- Model of `parts.join(":")`. -/
def joinColon (parts : List String) : String :=
  ⟨List.intercalate [':'] (parts.map String.data)⟩

/-- Model of `s.endsWith(suffix)`. -/
def jsEndsWith (s suffix : String) : Bool :=
  suffix.data.isSuffixOf s.data

/-- Helper for `indexOf`: does `needle` occur at the head of `hay`? -/
def matchesAt : List Char → List Char → Bool
  | _, [] => true
  | [], _ :: _ => false
  | h :: hs, n :: ns => h = n && matchesAt hs ns

/-- Helper for `indexOf`: first index at which `needle` occurs in `hay`. -/
def firstMatchIdx (hay needle : List Char) : Option Nat :=
  if matchesAt hay needle then some 0
  else
    match hay with
    | [] => none
    | _ :: t => (firstMatchIdx t needle).map (· + 1)

/-- Model of `s.indexOf(sub)`: first occurrence index, or `-1`. -/
def jsIndexOfStr (s sub : String) : Int :=
  match firstMatchIdx s.data sub.data with
  | some i => (i : Int)
  | none => -1

/-- Model of `s.replace(/"/g, "")`: remove every double quote. -/
def stripQuotes (s : String) : String := ⟨s.data.filter (fun c => c ≠ '"')⟩

/-! ### Scrollback history (SearchBrowser.onDidAccept, grep module)

The search picker keeps a history list `scrollBack`.  On accepting a
non-history result the code runs

    if (this.scrollBack.length > 20) { this.scrollBack.pop(); }
    this.scrollBack.unshift(scrollBackItem);

where `scrollBackItem = { label: this.quickPickValue, description: "History", num: 0 }`.
-/

structure ScrollItem where
  label : String
  description : String
  num : Nat
deriving DecidableEq

/-- Scrollback update performed by `SearchBrowser.onDidAccept` for an
accepted non-history item: conditional `pop()` (drop the last element)
followed by `unshift` (cons at the front). -/
def acceptScrollback (scrollBack : List ScrollItem) (quickPickValue : String) :
    List ScrollItem :=
  let sb := if 20 < scrollBack.length then scrollBack.dropLast else scrollBack
  { label := quickPickValue, description := "History", num := 0 } :: sb

/-- Full accept dispatch on the scrollback: no selected item or a
history item leaves the scrollback unchanged (a history item only replays
its text into the input). -/
def onDidAcceptScrollback (scrollBack : List ScrollItem) (selected : Option ScrollItem)
    (quickPickValue : String) : List ScrollItem :=
  match selected with
  | none => scrollBack
  | some item =>
      if item.description = "History" then scrollBack
      else acceptScrollback scrollBack quickPickValue

/-- Iterated accepts of non-history results (each with query text `"q"`). -/
def acceptRepeat : Nat → List ScrollItem → List ScrollItem
  | 0, sb => sb
  | n + 1, sb => acceptRepeat n (acceptScrollback sb "q")

/-! ### Pinned items (FileBrowser.togglePin) -/

inductive VFileType
  | unknown
  | file
  | directory
  | symbolicLink
deriving DecidableEq

structure PinnedItem where
  fsPath : String
  type : VFileType
deriving DecidableEq

/-- FileBrowser.togglePin: `findIndex` by path equality, then `push` of a
fresh entry when absent, `splice(found, 1)` when present.  `isDir` models
the awaited `path.isDir()` filesystem answer. -/
def togglePin (pinned : List PinnedItem) (fsPath : String) (isDir : Bool) :
    List PinnedItem :=
  match pinned.findIdx? (fun p => p.fsPath == fsPath) with
  | none => pinned ++ [{ fsPath := fsPath, type := if isDir then .directory else .file }]
  | some i => pinned.eraseIdx i

/-- Entry pushed by `togglePin` when the path was absent. -/
def pinEntry (fsPath : String) (isDir : Bool) : PinnedItem :=
  { fsPath := fsPath, type := if isDir then .directory else .file }

/-- Invariant from the spec data model: at most one pinned entry per
absolute path, phrased as pairwise distinct paths. -/
def pathsNodup (pinned : List PinnedItem) : Prop :=
  pinned.Pairwise (fun a b => a.fsPath ≠ b.fsPath)

instance (pinned : List PinnedItem) : Decidable (pathsNodup pinned) :=
  inferInstanceAs
    (Decidable (pinned.Pairwise (fun a b : PinnedItem => a.fsPath ≠ b.fsPath)))

theorem togglePin_cons_hit {p : PinnedItem} {rest : List PinnedItem} {path : String}
    {d : Bool} (h : p.fsPath = path) : togglePin (p :: rest) path d = rest := by
  simp [togglePin, List.findIdx?_cons, h]

theorem togglePin_cons_miss {p : PinnedItem} {rest : List PinnedItem} {path : String}
    {d : Bool} (h : p.fsPath ≠ path) :
    togglePin (p :: rest) path d = p :: togglePin rest path d := by
  simp only [togglePin, List.findIdx?_cons, beq_iff_eq, h, if_false]
  cases hfi : rest.findIdx? (fun q => q.fsPath == path) with
  | none => simp [hfi]
  | some i => simp [hfi, List.eraseIdx]

theorem togglePin_of_absent {pinned : List PinnedItem} {path : String} {d : Bool}
    (h : ∀ p ∈ pinned, p.fsPath ≠ path) :
    togglePin pinned path d = pinned ++ [pinEntry path d] := by
  induction pinned with
  | nil => rfl
  | cons p rest ih =>
      rw [togglePin_cons_miss (h p (by simp))]
      simp only [List.cons_append, List.cons.injEq, true_and]
      exact ih (fun q hq => h q (by simp [hq]))

theorem mem_togglePin {pinned : List PinnedItem} {path : String} {d : Bool}
    {q : PinnedItem} (h : q ∈ togglePin pinned path d) :
    q ∈ pinned ∨ q = pinEntry path d := by
  induction pinned with
  | nil =>
      simp only [togglePin, List.findIdx?_nil, List.nil_append, List.mem_singleton] at h
      exact Or.inr h
  | cons p rest ih =>
      by_cases hp : p.fsPath = path
      · rw [togglePin_cons_hit hp] at h
        exact Or.inl (List.mem_cons_of_mem _ h)
      · rw [togglePin_cons_miss hp] at h
        rcases List.mem_cons.mp h with h1 | h2
        · exact Or.inl (by simp [h1])
        · rcases ih h2 with h3 | h3
          · exact Or.inl (List.mem_cons_of_mem _ h3)
          · exact Or.inr h3

theorem togglePin_twice_of_absent {pinned : List PinnedItem} {path : String} {d : Bool}
    (h : ∀ p ∈ pinned, p.fsPath ≠ path) :
    togglePin (togglePin pinned path d) path d = pinned := by
  rw [togglePin_of_absent h]
  induction pinned with
  | nil =>
      simp only [List.nil_append]
      exact togglePin_cons_hit (by simp [pinEntry])
  | cons p rest ih =>
      rw [List.cons_append, togglePin_cons_miss (h p (by simp))]
      simp only [List.cons.injEq, true_and]
      exact ih (fun q hq => h q (by simp [hq]))

theorem pathsNodup_togglePin {pinned : List PinnedItem} {path : String} {d : Bool}
    (h : pathsNodup pinned) : pathsNodup (togglePin pinned path d) := by
  induction pinned with
  | nil =>
      simp [togglePin, pathsNodup]
  | cons p rest ih =>
      rcases List.pairwise_cons.mp h with ⟨hp, hrest⟩
      by_cases hcase : p.fsPath = path
      · rw [togglePin_cons_hit hcase]
        exact hrest
      · rw [togglePin_cons_miss hcase]
        refine List.pairwise_cons.mpr ⟨?_, ih hrest⟩
        intro q hq
        rcases mem_togglePin hq with hmem | hnew
        · exact hp q hmem
        · rw [hnew]
          simpa [pinEntry] using hcase

theorem togglePin_twice_perm {pinned : List PinnedItem} {path : String} {d : Bool}
    (hnd : pathsNodup pinned) (hmem : pinEntry path d ∈ pinned) :
    (togglePin (togglePin pinned path d) path d).Perm pinned := by
  induction pinned with
  | nil => cases hmem
  | cons p rest ih =>
      rcases List.pairwise_cons.mp hnd with ⟨hp, hrest⟩
      by_cases hcase : p.fsPath = path
      · have hpe : p = pinEntry path d := by
          rcases List.mem_cons.mp hmem with h1 | h2
          · exact h1.symm
          · exact absurd hcase (by simpa [pinEntry] using hp _ h2)
        rw [togglePin_cons_hit hcase]
        have habs : ∀ q ∈ rest, q.fsPath ≠ path := by
          intro q hq
          have := hp q hq
          rw [hcase] at this
          exact fun hqp => this hqp.symm
        rw [togglePin_of_absent habs, hpe]
        exact List.perm_append_singleton _ _
      · have hmem2 : pinEntry path d ∈ rest := by
          rcases List.mem_cons.mp hmem with h1 | h2
          · have hpp : p.fsPath = path := by rw [← h1]; rfl
            exact absurd hpp hcase
          · exact h2
        rw [togglePin_cons_miss hcase, togglePin_cons_miss hcase]
        exact List.Perm.cons p (ih hrest hmem2)

/-! ### Claim C1 (scrollback cap) -/

/-- C1: the claim says the scrollback history never exceeds 20 entries.  The code
only evicts when `scrollBack.length > 20`, which happens after the list has
already reached 21, so after 21 accepted results the scrollback holds 21
entries — one more than the cap its own comment (`Scrollback history is
limited to 20 items`) documents.  The just-accepted query is at index 0 as
claimed. -/
theorem C1_scrollback_exceeds_cap :
    (acceptRepeat 20 []).length = 20 ∧
    (acceptRepeat 21 []).length = 21 ∧
    (acceptRepeat 21 []).head? =
      some { label := "q", description := "History", num := 0 } := by
  decide

/-! ### Claim C8 (pin toggle) -/

/-- C8 counterexample: toggling the pin on `/a/b` twice does not return the
pinned list to its original state when `/a/b` was already pinned in front of
another entry: the re-pinned entry is appended at the end, reordering the
list. -/
theorem C8_togglePin_counterexample :
    togglePin (togglePin
        [{ fsPath := "/a/b", type := .directory }, { fsPath := "/c", type := .file }]
        "/a/b" true) "/a/b" true ≠
      [{ fsPath := "/a/b", type := .directory }, { fsPath := "/c", type := .file }] := by
  decide

/-- C8 amended: toggling twice restores the list exactly when the path was not
pinned; when the path is pinned (with the matching type) in a list with
pairwise-distinct paths, toggling twice yields a permutation of the original
list (the toggled entry moves to the end); and a single toggle preserves the
at-most-one-entry-per-path invariant. -/
theorem C8_togglePin_amended (pinned : List PinnedItem) (path : String) (d : Bool) :
    ((∀ p ∈ pinned, p.fsPath ≠ path) →
        togglePin (togglePin pinned path d) path d = pinned) ∧
    (pathsNodup pinned → pinEntry path d ∈ pinned →
        (togglePin (togglePin pinned path d) path d).Perm pinned) ∧
    (pathsNodup pinned → pathsNodup (togglePin pinned path d)) :=
  ⟨fun h => togglePin_twice_of_absent h,
   fun hnd hmem => togglePin_twice_perm hnd hmem,
   fun hnd => pathsNodup_togglePin hnd⟩

/-- Witness for C8: the amended theorem applied at concrete pinned lists. -/
theorem C8_togglePin_amended_witness :
    togglePin (togglePin [{ fsPath := "/c", type := .file }] "/a/b" true) "/a/b" true =
      [{ fsPath := "/c", type := .file }] ∧
    (togglePin (togglePin
        [{ fsPath := "/a/b", type := .directory }, { fsPath := "/c", type := .file }]
        "/a/b" true) "/a/b" true).Perm
      [{ fsPath := "/a/b", type := .directory }, { fsPath := "/c", type := .file }] ∧
    pathsNodup (togglePin
        [{ fsPath := "/a/b", type := .directory }, { fsPath := "/c", type := .file }]
        "/a/b" true) :=
  ⟨(C8_togglePin_amended [{ fsPath := "/c", type := .file }] "/a/b" true).1 (by decide),
   (C8_togglePin_amended
      [{ fsPath := "/a/b", type := .directory }, { fsPath := "/c", type := .file }]
      "/a/b" true).2.1 (by decide) (by decide),
   (C8_togglePin_amended
      [{ fsPath := "/a/b", type := .directory }, { fsPath := "/c", type := .file }]
      "/a/b" true).2.2 (by decide)⟩

/-! ### Debounce (grep module, wait = 100 ms)

The grep module wraps `updateSearch` as

    function debounce(callback, wait) {
      let timerId;
      return (...args) => {
          clearTimeout(timerId);
          timerId = setTimeout(() => { callback(...args); }, wait);
      };
    }

Discrete-time model: the single shared timer is either unset or scheduled at
a deadline together with the pending argument.  An incoming value-change
event first lets an already-expired timer fire, then cancels the timer and
re-schedules the callback `wait` milliseconds after the event; `flush` runs
time past the final deadline.  `fired` collects the values with which the
debounced `updateSearch` was invoked, in order. -/

def debounceWait : Nat := 100

structure DebounceState where
  timer : Option (Nat × String)
  fired : List String
deriving DecidableEq

/-- One value-change event `(time, value)` hitting the debounced wrapper. -/
def debounceEvent (s : DebounceState) (e : Nat × String) : DebounceState :=
  let s1 : DebounceState :=
    match s.timer with
    | some (d, v) => if d ≤ e.1 then { timer := none, fired := s.fired ++ [v] } else s
    | none => s
  { s1 with timer := some (e.1 + debounceWait, e.2) }

/-- Let the last scheduled timer fire. -/
def debounceFlush (s : DebounceState) : List String :=
  match s.timer with
  | some (_, v) => s.fired ++ [v]
  | none => s.fired

/-- All `updateSearch` invocations produced by a complete event sequence. -/
def debounceRun (events : List (Nat × String)) : List String :=
  debounceFlush (events.foldl debounceEvent { timer := none, fired := [] })

/-- A burst: events in strictly increasing time order, each arriving within
the debounce window of its predecessor. -/
def Burst (events : List (Nat × String)) : Prop :=
  events.Chain' (fun a b => a.1 < b.1 ∧ b.1 < a.1 + debounceWait)


theorem debounce_foldl_burst (rest : List (Nat × String)) :
    ∀ (t : Nat) (v : String) (fired : List String),
      List.Chain' (fun a b : Nat × String => a.1 < b.1 ∧ b.1 < a.1 + debounceWait)
        ((t, v) :: rest) →
      rest.foldl debounceEvent
          ({ timer := some (t + debounceWait, v), fired := fired } : DebounceState) =
        { timer := some ((rest.getLastD (t, v)).1 + debounceWait, (rest.getLastD (t, v)).2),
          fired := fired } := by
  induction rest with
  | nil => intro t v fired _; rfl
  | cons e rest ih =>
      intro t v fired hch
      rcases List.chain'_cons.mp hch with ⟨⟨_, hlt⟩, htail⟩
      have hstep : debounceEvent { timer := some (t + debounceWait, v), fired := fired } e =
          { timer := some (e.1 + debounceWait, e.2), fired := fired } := by
        simp [debounceEvent, Nat.not_le.mpr hlt]
      rw [List.foldl_cons, hstep, List.getLastD_cons]
      exact ih e.1 e.2 fired htail

theorem debounceRun_burst (events : List (Nat × String)) (hne : events ≠ [])
    (hb : Burst events) : debounceRun events = [(events.getLastD (0, "")).2] := by
  cases events with
  | nil => exact absurd rfl hne
  | cons e rest =>
      unfold debounceRun
      rw [List.foldl_cons]
      have hstep : debounceEvent { timer := none, fired := [] } e =
          { timer := some (e.1 + debounceWait, e.2), fired := [] } := by
        simp [debounceEvent]
      rw [hstep, debounce_foldl_burst rest e.1 e.2 [] hb, List.getLastD_cons]
      rfl

/-! ### Search process lifecycle (SearchBrowser.fetchItemsSearchContent /
fetchItemsSearchName)

Both fetchers begin with

    if (this.currentProcess) { this.currentProcess?.kill('SIGTERM'); this.currentProcess = undefined; }

and then store the newly spawned process in `this.currentProcess`.  The
`cp.exec` callback of a process — killed or not — resolves its promise with
whatever stdout the process produced (rejecting only on stderr), and the
generation that spawned it then assigns the aggregated results to
`this.current.items`; normal completion does not clear the held handle, only
the next spawn replaces it. -/

structure ProcState where
  currentProcess : Option Nat
  killed : List Nat
  recorded : List Nat
deriving DecidableEq

inductive ProcEvent
  | spawn (pid : Nat)
  | complete (pid : Nat)
deriving DecidableEq

/-- One lifecycle step: a spawn sends the termination signal to the held
process (if any) before storing the new handle; a completion delivers the
process's buffered output to its generation unconditionally — also for a
process that was killed — mirroring the unconditional `resolve` in the exec
callback.  `recorded` collects the processes whose results some generation
assigned to the picker items. -/
def procStep (s : ProcState) : ProcEvent → ProcState
  | .spawn pid =>
      match s.currentProcess with
      | some p =>
          { currentProcess := some pid, killed := s.killed ++ [p], recorded := s.recorded }
      | none => { s with currentProcess := some pid }
  | .complete pid => { s with recorded := s.recorded ++ [pid] }

def procRun (trace : List ProcEvent) : ProcState :=
  trace.foldl procStep { currentProcess := none, killed := [], recorded := [] }

theorem procRun_killed_mono (trace : List ProcEvent) :
    ∀ (s : ProcState) (p : Nat), p ∈ s.killed → p ∈ (trace.foldl procStep s).killed := by
  induction trace with
  | nil => intro s p hp; exact hp
  | cons e rest ih =>
      intro s p hp
      rw [List.foldl_cons]
      refine ih _ p ?_
      cases e with
      | spawn pid =>
          cases hcur : s.currentProcess with
          | none => simpa [procStep, hcur] using hp
          | some q =>
              simp only [procStep, hcur]
              exact List.mem_append.mpr (Or.inl hp)
      | complete pid => simpa [procStep] using hp

/-! ### Claim C2 (debounce; process termination before spawn) -/

/-- C2 counterexample: process 1 is killed by the second generation's spawn,
yet its completion still delivers its pre-kill buffered output to its own
generation, which records it — the killed process's results are recorded,
refuting the claim's "its results are never recorded". -/
theorem C2_killed_results_recorded_counterexample :
    1 ∈ (procRun [ProcEvent.spawn 1, ProcEvent.spawn 2, ProcEvent.complete 1,
        ProcEvent.complete 2]).killed ∧
    1 ∈ (procRun [ProcEvent.spawn 1, ProcEvent.spawn 2, ProcEvent.complete 1,
        ProcEvent.complete 2]).recorded := by
  decide

/-- C2 amended: a burst of input-change events within the 100 ms debounce
window produces exactly one `updateSearch` invocation, carrying the final
value of the burst; and before each new search process is spawned, any
process the session is still holding is sent the termination signal — it
joins the killed set for the remainder of the run and the new process
becomes the held one.  (The killed process's callback may nevertheless
resolve with its pre-kill buffered output, which its own stale generation
records.) -/
theorem C2_debounce_and_kill_amended (events : List (Nat × String))
    (hne : events ≠ []) (hb : Burst events) :
    debounceRun events = [(events.getLastD (0, "")).2] ∧
    (∀ pre post : List ProcEvent, ∀ pid p : Nat,
        (procRun pre).currentProcess = some p →
        p ∈ (procRun (pre ++ ProcEvent.spawn pid :: post)).killed ∧
        (procStep (procRun pre) (ProcEvent.spawn pid)).currentProcess = some pid) := by
  refine ⟨debounceRun_burst events hne hb, ?_⟩
  intro pre post pid p hcur
  constructor
  · have h1 : p ∈ (procStep (procRun pre) (ProcEvent.spawn pid)).killed := by
      simp [procStep, hcur]
    have h2 : procRun (pre ++ ProcEvent.spawn pid :: post) =
        post.foldl procStep (procStep (procRun pre) (ProcEvent.spawn pid)) := by
      rw [procRun, procRun, List.foldl_append, List.foldl_cons]
    rw [h2]
    exact procRun_killed_mono post _ p h1
  · simp [procStep, hcur]

/-- Witness for C2: a three-event burst at times 0, 50, 99 fires exactly one
search generation with the final value, and process 1 — held when the second
generation spawns process 2 — lands in the killed set of the full run. -/
theorem C2_debounce_and_kill_amended_witness :
    debounceRun [(0, "a"), (50, "ab"), (99, "abc")] = ["abc"] ∧
    1 ∈ (procRun [ProcEvent.spawn 1, ProcEvent.spawn 2, ProcEvent.complete 1,
        ProcEvent.complete 2]).killed := by
  have h := C2_debounce_and_kill_amended [(0, "a"), (50, "ab"), (99, "abc")]
    (by decide)
    (by unfold Burst; simp [List.chain'_cons, debounceWait])
  refine ⟨by simpa using h.1, ?_⟩
  exact (h.2 [ProcEvent.spawn 1] [ProcEvent.complete 1, ProcEvent.complete 2]
    2 1 (by decide)).1

/-! ### Query tokenizer (SearchBrowser.updateSearch)

    const isOption = (s) => /^--?[a-z]+/.test(s);
    const isWordQuoted = (s) => /^".*"/.test(s);
    let query = value.split(/\s/).reduce((acc, curr, index) => {
      if (index === 0 || isOption(curr) || isOption(acc[acc.length - 1])) {
        if (!isWordQuoted(curr) && !isOption(curr)) {
          acc.push("-i", curr);
          return acc;
        }
        acc.push(curr.replace(/"/g, ""));
        return acc;
      }
      acc[acc.length - 1] = acc[acc.length - 1] + ` ${curr}`;
      return acc;
    }, []);
-/

/-- Model of the regex test `/^--?[a-z]+/`: a dash, an optional second dash,
then at least one lowercase ASCII letter. -/
def isOption (s : String) : Bool :=
  match s.data with
  | '-' :: '-' :: c :: _ => c.isLower
  | '-' :: c :: _ => c.isLower
  | _ => false

/-- Model of the regex test `/^".*"/`: a leading double quote with a later
closing double quote (tokens never contain a newline, having been split on
whitespace). -/
def isWordQuoted (s : String) : Bool :=
  match s.data with
  | '"' :: rest => rest.contains '"'
  | _ => false

/-- Model of `acc[acc.length - 1]` (the empty string stands in for the
`undefined` read off an empty array; both fail `isOption`). -/
def jsLast (acc : List String) : String := acc.getLastD ""

/-- One step of the reduce in `SearchBrowser.updateSearch`. -/
def tokenAccum (acc : List String) (curr : String) (index : Nat) : List String :=
  if index = 0 ∨ isOption curr ∨ isOption (jsLast acc) then
    if ¬ isWordQuoted curr ∧ ¬ isOption curr then acc ++ ["-i", curr]
    else acc ++ [stripQuotes curr]
  else
    acc.dropLast ++ [jsLast acc ++ " " ++ curr]

/-- The full tokenizer: split on each whitespace character, then reduce with
the running index. -/
def updateSearchQuery (value : String) : List String :=
  ((jsSplitWs value).enum).foldl (fun acc p => tokenAccum acc p.2 p.1) []

/-- Amended-claim tokenizer, written as direct structural recursion over the
token list: a token that is a flag (dash plus lowercase letter) or is quoted
is pushed with all double quotes removed; any other token in first or
flag-following position is pushed behind an implicit `-i`; any other token is
re-joined onto the last accumulated argument with a space, verbatim. -/
def specPush (t : String) : List String :=
  if ¬ isWordQuoted t ∧ ¬ isOption t then ["-i", t] else [stripQuotes t]

def specTokenGo (acc : List String) : List String → List String
  | [] => acc
  | t :: ts =>
      if isOption t ∨ isOption (jsLast acc) then specTokenGo (acc ++ specPush t) ts
      else specTokenGo (acc.dropLast ++ [jsLast acc ++ " " ++ t]) ts

def specTokenize : List String → List String
  | [] => []
  | t :: ts => specTokenGo (specPush t) ts

theorem tokenAccum_succ (acc : List String) (curr : String) (n : Nat) :
    tokenAccum acc curr (n + 1) =
      if isOption curr ∨ isOption (jsLast acc) then acc ++ specPush curr
      else acc.dropLast ++ [jsLast acc ++ " " ++ curr] := by
  simp only [tokenAccum, specPush, Nat.succ_ne_zero, false_or]
  by_cases h : isOption curr ∨ isOption (jsLast acc)
  · rw [if_pos h, if_pos h]
    by_cases hq : ¬ isWordQuoted curr ∧ ¬ isOption curr
    · rw [if_pos hq, if_pos hq]
    · rw [if_neg hq, if_neg hq]
  · rw [if_neg h, if_neg h]

theorem enumFrom_foldl_eq_specGo (ts : List String) :
    ∀ (n : Nat) (acc : List String),
      (List.enumFrom (n + 1) ts).foldl (fun acc p => tokenAccum acc p.2 p.1) acc =
        specTokenGo acc ts := by
  induction ts with
  | nil => intro n acc; rfl
  | cons t ts ih =>
      intro n acc
      rw [List.enumFrom_cons, List.foldl_cons]
      show (List.enumFrom (n + 1 + 1) ts).foldl (fun acc p => tokenAccum acc p.2 p.1)
          (tokenAccum acc t (n + 1)) = specTokenGo acc (t :: ts)
      rw [tokenAccum_succ, specTokenGo]
      by_cases h : isOption t ∨ isOption (jsLast acc)
      · rw [if_pos h, if_pos h, ih (n + 1)]
      · rw [if_neg h, if_neg h, ih (n + 1)]

/-! ### Claim C4 (query tokenizer) -/

/-- C4 counterexample: the token `-I` starts with a dash followed by a
letter, yet it is not kept as a flag (the regex only accepts lowercase
letters), and the multi-token quoted argument keeps its quotes: the query
produces `["-i", "-I \"a b\""]`, not the `["-I", "a b"]` the claim
describes. -/
theorem C4_tokenizer_counterexample :
    updateSearchQuery "-I \"a b\"" = ["-i", "-I \"a b\""] ∧
    updateSearchQuery "-I \"a b\"" ≠ ["-I", "a b"] := by
  constructor
  · rfl
  · decide

/-- C4 amended: the index-carrying reduce is equivalent to the direct
case-split tokenizer `specTokenize`: splitting happens on each single
whitespace character; a flag token (dash or double dash followed by a
lowercase letter) and a quoted token (leading quote with a later quote) are
pushed with all double quotes removed; any other token in first or
flag-following position is preceded by the implicit `-i`; any other token is
re-joined onto the previous argument with a space, verbatim (quotes kept). -/
theorem C4_tokenizer_amended (value : String) :
    updateSearchQuery value = specTokenize (jsSplitWs value) := by
  unfold updateSearchQuery
  cases hsplit : jsSplitWs value with
  | nil => rfl
  | cons t ts =>
      rw [List.enum_cons, List.foldl_cons]
      show (List.enumFrom 1 ts).foldl (fun acc p => tokenAccum acc p.2 p.1)
          (tokenAccum [] t 0) = specTokenize (t :: ts)
      have h0 : tokenAccum [] t 0 = specPush t := by
        by_cases hq : ¬ isWordQuoted t = true ∧ ¬ isOption t = true <;>
          simp [tokenAccum, specPush, hq]
      rw [h0]
      exact enumFrom_foldl_eq_specGo ts 0 (specPush t)

/-! ### Content-search output parsing (SearchBrowser.fetchItemsSearchContent)

    const [fullPath, num, ...desc] = line.split(":");
    const description = desc.join(":").trim();
    ... .filter(({ description, num }) => description.length < MAX_DESC_LENGTH && !!num)
    ... { label: `${path[path.length - 1]} : ${num}`, description,
          detail: dir + fullPath.substring(1, fullPath.length), num }
-/

def MAX_DESC_LENGTH : Nat := 1000

structure ContentRecord where
  fullPath : String
  num : Option Nat
  line : String
  description : String
deriving DecidableEq

structure ContentItem where
  label : String
  description : String
  detail : String
  num : Nat
deriving DecidableEq

/-- Model of `Number(field)` on line-number fields: `Number(undefined)` is
NaN (`none`), `Number("")` is 0, a digit string is its value, anything else
is NaN. -/
def jsNumberField : Option String → Option Nat
  | none => none
  | some s =>
      if s.data = [] then some 0
      else if s.data.all Char.isDigit then
        some (s.data.foldl (fun acc c => 10 * acc + (c.toNat - 48)) 0)
      else none

/-- Destructuring split of one output line. -/
def splitContentLine (line : String) : ContentRecord :=
  let parts := jsSplitChar ':' line
  { fullPath := parts.headD ""
  , num := jsNumberField (parts.get? 1)
  , line := line
  , description := jsTrim (joinColon (parts.drop 2)) }

/-- The row filter `description.length < MAX_DESC_LENGTH && !!num` (`!!num`
is false exactly for NaN and 0). -/
def keepContentRecord (r : ContentRecord) : Bool :=
  decide (strLen r.description < MAX_DESC_LENGTH) &&
    (match r.num with | none => false | some n => n != 0)

/-- Item construction for a kept row. -/
def contentRecordToItem (dir : String) (r : ContentRecord) : ContentItem :=
  let pathParts := jsSplitChar '/' r.fullPath
  { label := pathParts.getLastD "" ++ " : " ++ toString (r.num.getD 0)
  , description := r.description
  , detail := dir ++ strDropFirst r.fullPath
  , num := r.num.getD 0 }

/-- fetchItemsSearchContent stdout parsing: split into non-empty lines,
destructure, filter, build items. -/
def fetchItemsSearchContent (dir stdout : String) : List ContentItem :=
  ((((jsSplitChar '\n' stdout).filter (fun l => l != "")).map splitContentLine).filter
    keepContentRecord).map (contentRecordToItem dir)

/-! ### Claim C3 (content-search line parsing) -/

/-- C3 counterexample: parsing the literal match line
`src/x.ts:12:foo bar baz` under search directory `/repo` yields `num = 12`
but `detail = "/reporc/x.ts"`: the code computes
`dir + fullPath.substring(1)`, chopping the first character of the matched
path, so the detail does not end in `src/x.ts`. -/
theorem C3_detail_counterexample :
    fetchItemsSearchContent "/repo" "src/x.ts:12:foo bar baz" =
      [{ label := "x.ts : 12", description := "foo bar baz",
         detail := "/reporc/x.ts", num := 12 }] ∧
    jsEndsWith "/reporc/x.ts" "src/x.ts" = false := by
  constructor
  · rfl
  · rfl

/-- C3 amended: each output line is split as `path:lineNumber:rest`; a row
whose number field is not a (nonzero) numeric string or whose description
reaches the length cap is dropped; a kept row yields `num` equal to the
parsed line number and `detail` equal to the search directory concatenated
with the path field minus its first character — which joins the directory
and the matched path for ripgrep's `./`-prefixed output.  In particular the
output line `./src/x.ts:12:foo bar baz` yields exactly one result with
`num = 12` and `detail` ending in `src/x.ts`. -/
theorem C3_content_parse_amended (dir : String) :
    fetchItemsSearchContent dir "./src/x.ts:12:foo bar baz" =
      [{ label := "x.ts : 12", description := "foo bar baz",
         detail := dir ++ "/src/x.ts", num := 12 }] ∧
    jsEndsWith (dir ++ "/src/x.ts") "src/x.ts" = true ∧
    (∀ r : ContentRecord, r.num = none → keepContentRecord r = false) ∧
    (∀ r : ContentRecord, MAX_DESC_LENGTH ≤ strLen r.description →
        keepContentRecord r = false) ∧
    (∀ r : ContentRecord, ∀ n : Nat, r.num = some n → keepContentRecord r = true →
        (contentRecordToItem dir r).num = n ∧
        (contentRecordToItem dir r).detail = dir ++ strDropFirst r.fullPath) := by
  refine ⟨rfl, ?_, ?_, ?_, ?_⟩
  · unfold jsEndsWith
    rw [String.data_append]
    exact List.isSuffixOf_iff_suffix.mpr ⟨dir.data ++ ['/'], by simp⟩
  · intro r h
    simp [keepContentRecord, h]
  · intro r h
    simp [keepContentRecord, Nat.not_lt.mpr h]
  · intro r n h _
    simp [contentRecordToItem, h]

/-- Witness for C3: the amended theorem applied at `dir = "/repo"`, with the
drop conditions and the kept-row description discharged on concrete rows. -/
theorem C3_content_parse_amended_witness :
    fetchItemsSearchContent "/repo" "./src/x.ts:12:foo bar baz" =
      [{ label := "x.ts : 12", description := "foo bar baz",
         detail := "/repo" ++ "/src/x.ts", num := 12 }] ∧
    keepContentRecord { fullPath := "x", num := none, line := "x", description := "" }
      = false ∧
    (contentRecordToItem "/repo"
        { fullPath := "./a.ts", num := some 3, line := "", description := "d" }).num = 3 := by
  have h := C3_content_parse_amended "/repo"
  refine ⟨h.1, h.2.2.1 _ rfl, ?_⟩
  exact (h.2.2.2.2 _ 3 rfl (by decide)).1

/-! ### Result aggregation across directories (SearchBrowser.updateSearch)

    this.current.items = (await Promise.allSettled(this.dirs.map(...)))
      .map((result) => { if (result.status === "rejected")
                           vscode.window.showErrorMessage(result.reason);
                         return result; })
      .filter((result) => result.status === "fulfilled")
      .map((result) => result.status === "fulfilled" ? result.value : [])
      .flat();
-/

/-- Aggregation of the settled per-directory searches: fulfilled results are
kept in order and concatenated. -/
def updateSearchAggregate (results : List (Except String (List ContentItem))) :
    List ContentItem :=
  ((results.filter (fun r => match r with | .ok _ => true | .error _ => false)).map
    (fun r => match r with | .ok v => v | .error _ => [])).flatten

/-- Errors surfaced to the user by the rejected branches, in order. -/
def reportedErrors (results : List (Except String (List ContentItem))) : List String :=
  results.filterMap (fun r => match r with | .error e => some e | .ok _ => none)

/-! ### Claim C5 (per-directory failure isolation) -/

/-- C5: a rejected directory's error is reported but removing it leaves
exactly the concatenation of the other directories' fulfilled results; on an
all-fulfilled run the item list is exactly the concatenation of the
per-directory result lists. -/
theorem C5_partial_failure_isolation :
    (∀ pre post : List (Except String (List ContentItem)), ∀ e : String,
        updateSearchAggregate (pre ++ Except.error e :: post) =
          updateSearchAggregate pre ++ updateSearchAggregate post ∧
        e ∈ reportedErrors (pre ++ Except.error e :: post)) ∧
    (∀ ls : List (List ContentItem),
        updateSearchAggregate (ls.map Except.ok) = ls.flatten) := by
  constructor
  · intro pre post e
    constructor
    · unfold updateSearchAggregate
      rw [List.filter_append, List.filter_cons]
      simp [List.flatten_append]
    · rw [reportedErrors]
      exact List.mem_filterMap.mpr ⟨Except.error e, by simp, rfl⟩
  · intro ls
    unfold updateSearchAggregate
    rw [List.filter_map]
    have hall : (ls.filter ((fun r : Except String (List ContentItem) => match r with
        | Except.ok _ => true | Except.error _ => false) ∘ Except.ok)) = ls :=
      List.filter_eq_self.mpr (fun a _ => rfl)
    rw [hall, List.map_map]
    have hmap : ((fun r : Except String (List ContentItem) => match r with
        | Except.ok v => v | Except.error _ => ([] : List ContentItem)) ∘ Except.ok) =
        id := rfl
    rw [hmap, List.map_id]

/-! ### Action dispatch (FileBrowser.runAction)

The `Action` enum of the action module, together with the `CopyPath` tag
dispatched by the browser module's action menu and `runAction` switch.  Each
switch branch is summarised by the external effects it requests; the
`default` branch throws `Unhandled action`. -/

inductive Action
  | NewFile
  | NewFolder
  | OpenFile
  | OpenFileBeside
  | RenameFile
  | DeleteFile
  | OpenFolder
  | OpenFolderInNewWindow
  | Pin
  | OpenPin
  | FindFiles
  | FindFilesContent
  | CopyPath
deriving DecidableEq

def joinPath (dir name : String) : String := dir ++ "/" ++ name

/-- Model of `OSPath.dirname` on slash paths: strip the final segment and
its separator (approximation adequate for non-root paths). -/
def dirname (p : String) : String :=
  ⟨((p.data.reverse.dropWhile (fun c => c ≠ '/')).drop 1).reverse⟩

structure ActionEnv where
  pathFsPath : String
  pathIsDir : Bool
deriving DecidableEq

structure ActionItem where
  name : String
  action : Option Action
  arg : Option PinnedItem
deriving DecidableEq

inductive Effect
  | fsCreateDirectory (p : String)
  | openUntitled (p : String)
  | openFileEffect (p : String)
  | openFileBesideEffect (p : String)
  | renameFlow
  | deleteFlow
  | execOpenFolder (p : String) (newWindow : Bool)
  | togglePinEffect (p : String)
  | navigateTo (p : String)
  | searchDirsEffect (dirs : List String) (contentSearch : Bool)
  | clipboardWrite (text : String)
  | hidePicker
  | unhandledActionError
deriving DecidableEq

/-- FileBrowser.runAction: the switch over `item.action`.  An item without a
tag falls to the default branch (`throw new Error("Unhandled action ...")`);
every named tag has a case.  `CopyPath` writes `this.path.fsPath` to the
clipboard and hides the picker. -/
def runAction (env : ActionEnv) (item : ActionItem) : List Effect :=
  match item.action with
  | none => [.unhandledActionError]
  | some a =>
      match a with
      | .NewFolder => [.fsCreateDirectory env.pathFsPath]
      | .NewFile => [.openUntitled (joinPath env.pathFsPath item.name)]
      | .OpenFile =>
          [.openFileEffect (if item.name ≠ "" then joinPath env.pathFsPath item.name
            else env.pathFsPath)]
      | .OpenFileBeside =>
          [.openFileBesideEffect (if item.name ≠ "" then joinPath env.pathFsPath item.name
            else env.pathFsPath)]
      | .RenameFile => [.renameFlow]
      | .DeleteFile => [.deleteFlow]
      | .OpenFolder => [.execOpenFolder env.pathFsPath false]
      | .OpenFolderInNewWindow => [.execOpenFolder env.pathFsPath true]
      | .Pin => [.togglePinEffect env.pathFsPath, .hidePicker]
      | .OpenPin =>
          match item.arg with
          | some pin =>
              if pin.type = .directory then [.navigateTo pin.fsPath]
              else [.openFileEffect pin.fsPath]
          | none => [.unhandledActionError]
      | .FindFiles =>
          [.searchDirsEffect [if env.pathIsDir then env.pathFsPath
            else dirname env.pathFsPath] false]
      | .FindFilesContent =>
          [.searchDirsEffect [if env.pathIsDir then env.pathFsPath
            else dirname env.pathFsPath] true]
      | .CopyPath => [.clipboardWrite env.pathFsPath, .hidePicker]

/-! ### Claim C6 (CopyPath dispatch) -/

/-- C6: dispatching an item tagged `CopyPath` writes the current path's
display string to the clipboard collaborator (and hides the picker); the
dispatch takes the CopyPath branch, producing neither the unhandled-action
error nor any file-opening effect. -/
theorem C6_copyPath_dispatch (env : ActionEnv) (item : ActionItem)
    (h : item.action = some Action.CopyPath) :
    runAction env item = [.clipboardWrite env.pathFsPath, .hidePicker] ∧
    Effect.unhandledActionError ∉ runAction env item ∧
    (∀ p : String, Effect.openFileEffect p ∉ runAction env item ∧
      Effect.openFileBesideEffect p ∉ runAction env item ∧
      Effect.openUntitled p ∉ runAction env item) := by
  have hrun : runAction env item = [.clipboardWrite env.pathFsPath, .hidePicker] := by
    simp [runAction, h]
  refine ⟨hrun, ?_, ?_⟩
  · rw [hrun]; simp
  · intro p; rw [hrun]; simp

/-- Witness for C6: the theorem applied to a concrete CopyPath menu item. -/
theorem C6_copyPath_dispatch_witness :
    runAction { pathFsPath := "/home/u/f.txt", pathIsDir := false }
        { name := "", action := some Action.CopyPath, arg := none } =
      [.clipboardWrite "/home/u/f.txt", .hidePicker] :=
  (C6_copyPath_dispatch { pathFsPath := "/home/u/f.txt", pathIsDir := false }
    { name := "", action := some Action.CopyPath, arg := none } rfl).1

/-! ### Path, rename and delete flows (FileBrowser.rename / runAction DeleteFile) -/

/-- Modelled from the spec: the `Path` class lives in `path.ts`, which is not
among the provided sources.  Per spec section 4.1 a Path carries a segment
sequence; `pop()` removes and returns the last segment as an `Option`, and
popping past the root returns an absent result rather than failing. -/
structure PathM where
  segments : List String
deriving DecidableEq

/-- Modelled from the spec: `pop() -> Option<name>`. -/
def PathM.pop (p : PathM) : Option String × PathM :=
  match p.segments.getLast? with
  | none => (none, p)
  | some last => (some last, ⟨p.segments.dropLast⟩)

inductive OpOutcome
  | preconditionFailure (message : String)
  | renamed (newName : String)
  | deleted (name : String)
  | errorReported (message : String)
  | cancelled
deriving DecidableEq

/-- FileBrowser.rename: pop the file name — `unwrapOrElse(() => { throw new
Error("Can't rename an empty file name!"); })` — prompt for the new name,
attempt the filesystem rename, and on failure show a user-visible error
message.  `userInput` models the input-box result (`none` = dismissed),
`fsRenameOk` the filesystem collaborator's success. -/
def rename (p : PathM) (isDir : Bool) (userInput : Option String)
    (fsRenameOk : Bool) : OpOutcome :=
  match (p.pop).1 with
  | none => .preconditionFailure "Can't rename an empty file name!"
  | some fileName =>
      match userInput with
      | none => .cancelled
      | some result =>
          if fsRenameOk then .renamed result
          else .errorReported ("Failed to rename " ++
            (if isDir then "folder" else "file") ++ " \x22" ++ fileName ++ "\x22")

/-- runAction's DeleteFile branch: pop the file name — `unwrapOrElse(() =>
{ throw new Error("Can't delete an empty file name!"); })` — confirm via a
binary choice, delete (recursively for a directory), and on failure show a
user-visible error message. -/
def deleteFile (p : PathM) (isDir : Bool) (confirmed : Bool)
    (fsDeleteOk : Bool) : OpOutcome :=
  match (p.pop).1 with
  | none => .preconditionFailure "Can't delete an empty file name!"
  | some fileName =>
      if confirmed then
        if fsDeleteOk then .deleted fileName
        else .errorReported ("Failed to delete " ++
          (if isDir then "folder" else "file") ++ " \x22" ++ fileName ++ "\x22")
      else .cancelled

/-- Whether the flow reaches the `show(); keepAlive = false; inActions =
false; update()` continuation and resumes browsing; a thrown precondition
failure skips it. -/
def returnsToBrowsing : OpOutcome → Bool
  | .preconditionFailure _ => false
  | _ => true

/-! ### Claim C9 (precondition violation vs filesystem failure) -/

/-- C9: on a path with no poppable file name, rename and delete raise the
hard precondition error and do not resume browsing; on a well-formed path, a
filesystem failure is reported as a user-visible message and the flow
resumes browsing. -/
theorem C9_precondition_vs_fs_failure (p : PathM) (isDir confirmed fsOk : Bool)
    (input : Option String) :
    (p.segments = [] →
      rename p isDir input fsOk =
        .preconditionFailure "Can't rename an empty file name!" ∧
      deleteFile p isDir confirmed fsOk =
        .preconditionFailure "Can't delete an empty file name!" ∧
      returnsToBrowsing (rename p isDir input fsOk) = false ∧
      returnsToBrowsing (deleteFile p isDir confirmed fsOk) = false) ∧
    (p.segments ≠ [] → ∀ result : String,
      (∃ m, rename p isDir (some result) false = .errorReported m) ∧
      (∃ m, deleteFile p isDir true false = .errorReported m) ∧
      returnsToBrowsing (rename p isDir (some result) false) = true ∧
      returnsToBrowsing (deleteFile p isDir true false) = true) := by
  constructor
  · intro hnil
    have hpop : (p.pop).1 = none := by
      simp [PathM.pop, hnil]
    refine ⟨?_, ?_, ?_, ?_⟩ <;> simp [rename, deleteFile, hpop, returnsToBrowsing]
  · intro hne result
    obtain ⟨last, hlast⟩ := Option.isSome_iff_exists.mp (List.getLast?_isSome.mpr hne)
    have hpop : (p.pop).1 = some last := by
      simp [PathM.pop, hlast]
    refine ⟨⟨"Failed to rename " ++ (if isDir then "folder" else "file") ++
        " \x22" ++ last ++ "\x22", ?_⟩,
      ⟨"Failed to delete " ++ (if isDir then "folder" else "file") ++
        " \x22" ++ last ++ "\x22", ?_⟩, ?_, ?_⟩ <;>
      simp [rename, deleteFile, hpop, returnsToBrowsing]

/-- Witness for C9: the theorem applied at the root path and at a concrete
two-segment path with a failing filesystem. -/
theorem C9_precondition_vs_fs_failure_witness :
    rename ⟨[]⟩ false (some "x") true =
      .preconditionFailure "Can't rename an empty file name!" ∧
    returnsToBrowsing (deleteFile ⟨["a", "b.txt"]⟩ false true false) = true :=
  ⟨((C9_precondition_vs_fs_failure ⟨[]⟩ false false true (some "x")).1 rfl).1,
   (((C9_precondition_vs_fs_failure ⟨["a", "b.txt"]⟩ false true false
      (some "x")).2 (by decide) "x").2.2.2)⟩

/-! ### Navigator tab completion (FileBrowser.tabCompletion /
FileBrowser.onDidChangeValue)

    if (this.autoCompletion) {
      const length = this.autoCompletion.items.length;
      const step = tabNext ? 1 : -1;
      this.autoCompletion.index = (this.autoCompletion.index + length + step) % length;
    } else {
      const items = this.items.filter(...).sort(...);
      this.autoCompletion = { index: tabNext ? 0 : items.length - 1, items };
    }
    const newIndex = this.autoCompletion.index;
    const length = this.autoCompletion.items.length;
    if (newIndex < length) {
      const item = this.autoCompletion.items[newIndex];
      if (length === 1 && item.fileType === vscode.FileType.Directory) {
        this.current.value = item.name + '/';
      } else {
        this.isAutoCompleteChange = true;
        this.current.value = item.name;
      }
    }

JavaScript array indexing at `-1` yields `undefined`, so `item.name` (or
`item.fileType`) throws a TypeError there; `x % 0` is NaN, and a NaN index
fails the `newIndex < length` comparison.  Setting `this.current.value`
fires `onDidChangeValue`, whose first lines clear the completion cursor
unless the one-shot `isAutoCompleteChange` flag was set. -/

structure NavFileItem where
  name : String
  fileType : Option VFileType
deriving DecidableEq

structure AutoCompletionState where
  index : Option Int
  items : List NavFileItem
deriving DecidableEq

structure NavState where
  items : List NavFileItem
  value : String
  autoCompletion : Option AutoCompletionState
  isAutoCompleteChange : Bool
  inActions : Bool
deriving DecidableEq

inductive TabResult
  | ok (s : NavState)
  | typeError (message : String)
deriving DecidableEq

/-- JavaScript `%` on integers: truncated remainder, NaN for modulus 0. -/
def jsRem (a b : Int) : Option Int := if b = 0 then none else some (a.tmod b)

/-- Comparator of the candidate sort: earliest match position of the input
first, ties by case-insensitive lexicographic name order (`localeCompare`
modelled as ordinal comparison of the lowercased names). -/
def candidateCmp (value : String) (a b : NavFileItem) : Int :=
  let ia := jsIndexOfStr (lowerStr a.name) (lowerStr value)
  let ib := jsIndexOfStr (lowerStr b.name) (lowerStr value)
  if ia ≠ ib then ia - ib
  else
    match compare (lowerStr a.name) (lowerStr b.name) with
    | .lt => -1
    | .eq => 0
    | .gt => 1

/-- Stable comparator insertion (ECMAScript sort is stable; a stable
comparator sort is extensionally unique, so insertion sort embeds it). -/
def insertCmp (cmp : NavFileItem → NavFileItem → Int) (x : NavFileItem) :
    List NavFileItem → List NavFileItem
  | [] => [x]
  | y :: ys => if cmp y x < 0 then y :: insertCmp cmp x ys else x :: y :: ys

def stableSortCmp (cmp : NavFileItem → NavFileItem → Int) :
    List NavFileItem → List NavFileItem
  | [] => []
  | x :: xs => insertCmp cmp x (stableSortCmp cmp xs)

/-- Candidate construction: case-insensitive substring filter, then the
stable comparator sort. -/
def matchCandidates (items : List NavFileItem) (value : String) : List NavFileItem :=
  stableSortCmp (candidateCmp value)
    (items.filter (fun i => jsIndexOfStr (lowerStr i.name) (lowerStr value) != -1))

/-- FileBrowser.tabCompletion. -/
def tabCompletion (s0 : NavState) (tabNext : Bool) : TabResult :=
  if s0.inActions then .ok s0
  else
    let s : NavState :=
      match s0.autoCompletion with
      | some ac =>
          let len : Int := ac.items.length
          let step : Int := if tabNext then 1 else -1
          let newIdx : Option Int :=
            (ac.index.map (fun i => i + len + step)).bind (fun x => jsRem x len)
          { s0 with autoCompletion := some { ac with index := newIdx } }
      | none =>
          let items := matchCandidates s0.items s0.value
          let newAc : AutoCompletionState :=
            { index := some (if tabNext then 0 else (items.length : Int) - 1)
            , items := items }
          { s0 with autoCompletion := some newAc }
    match s.autoCompletion with
    | none => .ok s
    | some ac =>
        match ac.index with
        | none => .ok s
        | some newIndex =>
            if newIndex < (ac.items.length : Int) then
              match (if 0 ≤ newIndex then ac.items.get? newIndex.toNat else none) with
              | some item =>
                  if ac.items.length = 1 ∧ item.fileType = some .directory then
                    .ok { s with value := item.name ++ "/" }
                  else
                    .ok { s with isAutoCompleteChange := true, value := item.name }
              | none => .typeError "Cannot read properties of undefined"
            else .ok s

/-- The guard lines opening FileBrowser.onDidChangeValue: a change that was
not flagged as an auto-completion write clears the completion cursor;
otherwise only the one-shot flag is reset. -/
def onDidChangeValuePrologue (s : NavState) : NavState :=
  if s.inActions then s
  else if s.isAutoCompleteChange then { s with isAutoCompleteChange := false }
  else { s with autoCompletion := none }

/-- tabCompletion followed by the `onDidChangeValue` event that assigning
`this.current.value` fires whenever the value actually changed. -/
def tabCompletionWithEvent (s0 : NavState) (tabNext : Bool) : TabResult :=
  match tabCompletion s0 tabNext with
  | .typeError m => .typeError m
  | .ok s1 => .ok (if s1.value ≠ s0.value then onDidChangeValuePrologue s1 else s1)

def resultState : TabResult → Option NavState
  | .ok s => some s
  | .typeError _ => none

/-! ### Claim C7 (single directory candidate) -/

/-- C7 counterexample: with the single directory candidate `docs` matching
input `do`, tab completion sets the value to `docs/`, but the induced
value-change event finds the one-shot flag unset (the single-directory
branch does not set it) and clears the completion cursor — the claim that
the cursor is not invalidated fails. -/
theorem C7_single_dir_counterexample :
    (resultState (tabCompletionWithEvent
        { items := [{ name := "docs", fileType := some .directory }]
        , value := "do", autoCompletion := none
        , isAutoCompleteChange := false, inActions := false } true)).map
      (fun s => (s.value, s.autoCompletion, s.isAutoCompleteChange)) =
      some ("docs/", none, false) := by
  decide

/-- C7 amended: when exactly one candidate matches and it is a directory,
tab completion (in either direction) sets the value to the candidate's name
followed by exactly one separator and leaves the completion cursor in place;
but because this branch does not set the auto-completion re-entrancy flag,
the value-change event fired by the assignment then invalidates the
cursor. -/
theorem C7_single_dir_amended (s : NavState) (d : NavFileItem) (tabNext : Bool)
    (hin : s.inActions = false) (hac : s.autoCompletion = none)
    (hflag : s.isAutoCompleteChange = false)
    (hmatch : matchCandidates s.items s.value = [d])
    (hdir : d.fileType = some .directory)
    (hval : s.value ≠ d.name ++ "/") :
    tabCompletion s tabNext =
      .ok { s with value := d.name ++ "/",
                   autoCompletion := some { index := some 0, items := [d] } } ∧
    tabCompletionWithEvent s tabNext =
      .ok { s with value := d.name ++ "/", autoCompletion := none } := by
  have htab : tabCompletion s tabNext =
      .ok { s with value := d.name ++ "/",
                   autoCompletion := some { index := some 0, items := [d] } } := by
    cases tabNext <;> simp [tabCompletion, hin, hac, hmatch, hdir]
  refine ⟨htab, ?_⟩
  rw [tabCompletionWithEvent, htab]
  simp only [ne_eq]
  rw [if_pos (by simpa using fun h => hval h.symm)]
  simp [onDidChangeValuePrologue, hin, hflag]

/-- Witness for C7: the amended theorem at the concrete `docs` state. -/
theorem C7_single_dir_amended_witness :
    tabCompletionWithEvent
        { items := [{ name := "docs", fileType := some .directory }]
        , value := "do", autoCompletion := none
        , isAutoCompleteChange := false, inActions := false } false =
      .ok { items := [{ name := "docs", fileType := some .directory }]
          , value := "docs/", autoCompletion := none
          , isAutoCompleteChange := false, inActions := false } :=
  (C7_single_dir_amended
    { items := [{ name := "docs", fileType := some .directory }]
    , value := "do", autoCompletion := none
    , isAutoCompleteChange := false, inActions := false }
    { name := "docs", fileType := some .directory } false
    rfl rfl rfl (by decide) rfl (by decide)).2

/-! ### Claim C10 (tab completion with no matching candidate) -/

/-- Concrete navigator state in which no item name contains the input. -/
def navNoMatch : NavState :=
  { items := [{ name := "apple", fileType := some .file }]
  , value := "zzz", autoCompletion := none
  , isAutoCompleteChange := false, inActions := false }

/-- C10: the claim (and the code's own comment `This also checks out when
items is empty`) says candidate access stays in bounds and the value is
unchanged.  Forward tab indeed skips the apply step; but backward tab builds
the cursor with index `items.length - 1 = -1`, which passes the
`newIndex < length` guard (`-1 < 0`), reads `items[-1]` (`undefined`), and
crashes with a TypeError on `item.name`. -/
theorem C10_tab_no_match_backward_crash :
    tabCompletion navNoMatch false = .typeError "Cannot read properties of undefined" ∧
    tabCompletion navNoMatch true =
      .ok { navNoMatch with autoCompletion := some { index := some 0, items := [] } } ∧
    (resultState (tabCompletion navNoMatch true)).map (fun s => s.value) =
      some navNoMatch.value := by
  refine ⟨?_, ?_, ?_⟩ <;> decide

end CodeBrowser
